import Mathlib

/-!
A shallow embedding of the lighthouse `cat` plugin
(`pkg/plugins/cat/cat.go`): the grumpy-keyword regular expression,
the credential cache (`realClowder.setKey`), query-URL construction
(`realClowder.URL`), image retrieval (`realClowder.readCat`,
`catResult.Format`) and the comment-posting command handler (`handle`).

Text is modelled as `List Char`.  External effects (the HTTP GET issued
by `readCat`, the `scmprovider.ImageTooBig` size check, the key file
read by `setKey`, and the `CreateComment` posting call) are modelled as
explicit function parameters; `readCat` additionally reports whether it
performed the HTTP GET, and `setKey` reports how many file reads it
performed, so that the claims about effects can be stated.
-/

set_option autoImplicit false

namespace Cat

/-- Character strings, modelled as lists of characters. -/
abbrev Str := List Char

/-! ## The grumpy-keyword regular expression

Go source: `grumpyKeywords = regexp.MustCompile(`(?mi)^(no|grumpy)\s*$`)`
(cat.go line 39).  The flags are `m` (multiline: `^` matches at the start
of the text and after every newline, `$` at the end of the text and
before every newline) and `i` (case-insensitive).  `MatchString` asks
whether the pattern matches anywhere in the text.
-/

/-- The whitespace class `\s` of Go's RE2 syntax: `[\t\n\f\r ]`
(note: RE2's `\s` does not contain the vertical tab 0x0B). -/
def isWsRE2 (c : Char) : Bool :=
  c == '\t' || c == '\n' || c == Char.ofNat 12 || c == Char.ofNat 13 || c == ' '

/-- Does `\s*$` (in multiline mode) match at this position: some number of
whitespace characters followed by the end of the text or a position just
before a newline? -/
def wsThenEol : Str → Bool
  | [] => true
  | c :: r => c == '\n' || (isWsRE2 c && wsThenEol r)

/-- Case-insensitive match of a literal lowercase keyword at the front of
the input; returns the remainder of the input on success.  The keywords
`no` and `grumpy` consist of ASCII letters only, whose RE2 case folding
is exactly ASCII lowercasing. -/
def matchKeyword : Str → Str → Option Str
  | [], s => some s
  | _ :: _, [] => none
  | p :: ps, c :: cs => if c.toLower == p then matchKeyword ps cs else none

/-- The first alternative of the keyword group: `no`. -/
def noPat : Str := ['n', 'o']

/-- The second alternative of the keyword group: `grumpy`. -/
def grumpyPat : Str := ['g', 'r', 'u', 'm', 'p', 'y']

/-- Does `(no|grumpy)\s*$` match starting at this position (the position
itself must be a line start, which the caller guarantees)? -/
def lineStartMatch (s : Str) : Bool :=
  (match matchKeyword noPat s with
   | some r => wsThenEol r
   | none => false) ||
  (match matchKeyword grumpyPat s with
   | some r => wsThenEol r
   | none => false)

/-- Scan every position of the text for a match of `^(no|grumpy)\s*$`.
The boolean flag records whether the current position is a line start
(the start of the text, or just after a newline). -/
def grumpyGo : Bool → Str → Bool
  | _, [] => false
  | ls, c :: r => (ls && lineStartMatch (c :: r)) || grumpyGo (c == '\n') r

/-- `grumpyKeywords.MatchString category`: does the Go regular expression
`(?mi)^(no|grumpy)\s*$` match somewhere in the text? -/
def grumpyMatch (s : Str) : Bool := grumpyGo true s

/-! ## Query-URL construction

Go source: `realClowder.URL` (cat.go lines 132-146), using
`url.QueryEscape` from `net/url`: every byte of the UTF-8 encoding is
kept if it is alphanumeric or one of `-_.~`, a space becomes `+`, and
every other byte becomes `%XX` with uppercase hexadecimal digits.
-/

/-- Uppercase hexadecimal digit for `n < 16`. -/
def hexUpper (n : Nat) : Char :=
  if n < 10 then Char.ofNat (48 + n) else Char.ofNat (55 + n)

/-- The UTF-8 encoding of a character, as a list of byte values. -/
def utf8Bytes (c : Char) : List Nat :=
  let n := c.toNat
  if n < 128 then [n]
  else if n < 2048 then [192 + n / 64, 128 + n % 64]
  else if n < 65536 then [224 + n / 4096, 128 + (n / 64) % 64, 128 + n % 64]
  else [240 + n / 262144, 128 + (n / 4096) % 64, 128 + (n / 64) % 64, 128 + n % 64]

/-- Bytes `url.QueryEscape` leaves unescaped: ASCII alphanumerics and
`-`, `_`, `.`, `~`. -/
def isUnreservedQuery (b : Nat) : Bool :=
  (65 ≤ b && b ≤ 90) || (97 ≤ b && b ≤ 122) || (48 ≤ b && b ≤ 57) ||
  b == 45 || b == 95 || b == 46 || b == 126

/-- How `url.QueryEscape` renders one byte. -/
def escQueryByte (b : Nat) : Str :=
  if isUnreservedQuery b then [Char.ofNat b]
  else if b == 32 then ['+']
  else ['%', hexUpper (b / 16), hexUpper (b % 16)]

/-- `url.QueryEscape`, byte for byte over the UTF-8 encoding. -/
def queryEscape (s : Str) : Str :=
  s.flatMap fun c => (utf8Bytes c).flatMap escQueryByte

/-- The base endpoint stored in the package-level `realClowder` instance
`meow` (cat.go lines 40-42). -/
def catAPIBase : Str :=
  "https://api.thecatapi.com/v1/images/search?format=json&results_per_page=1".toList

/-- The fixed fallback image, constant `grumpyURL` (cat.go line 47). -/
def grumpyURLChars : Str :=
  "https://upload.wikimedia.org/wikipedia/commons/e/ee/Grumpy_Cat_by_Gage_Skidmore.jpg".toList

/-- `realClowder.URL` (cat.go lines 132-146): the base endpoint, then the
escaped category parameter when the category is non-empty, then the
escaped API-key parameter when the cached key is non-empty, then the
animated-format parameter when the movie flag is set.  The cached key,
read under the shared lock in the source, is passed explicitly. -/
def URL (key category : Str) (movieCat : Bool) : Str :=
  catAPIBase ++
  (if category ≠ [] then "&category=".toList ++ queryEscape category else []) ++
  (if key ≠ [] then "&api_key=".toList ++ queryEscape key else []) ++
  (if movieCat then "&mime_types=gif".toList else [])

/-! ## A model of `net/url` parsing, as used by `catResult.Format`

`Format` runs `url.Parse` on the image URL and prints the parsed value
back into the embed string, so the model must reproduce the
`Parse`/`String` round trip.  It follows the `net/url` source: the
control-byte check, `getScheme` (with scheme lowercasing), the
force-query/raw-query split, opaque (rootless) URLs kept verbatim, the
authority split with host-charset and port validation, path and
fragment percent-escape validation (`unescape`) and re-encoding on
output (`EscapedPath`/`EscapedFragment` via `validEncoded`, e.g. a
space becomes `%20` while a valid `%41` is preserved), the raw
unvalidated query, and `URL.String`'s rules for when `//` and `#` are
written.  All escaping is byte-level over the UTF-8 encoding, as in Go.

Deliberate model boundary, biased toward rejection: an authority
holding userinfo (`@`), a percent-escape, or a bracketed IPv6 host is
outside the modelled subset and reported as an error (real `url.Parse`
may accept some of these); no theorem below asserts anything about
`readCat` on such inputs.  Everywhere else the accept/reject verdict
and the serialized output mirror `net/url`. -/

/-- ASCII control bytes rejected by `url.Parse` (`stringContainsCTLByte`). -/
def isCTL (c : Char) : Bool := c.toNat < 32 || c.toNat == 127

/-- Characters allowed in a URL scheme after the first. -/
def isSchemeChar (c : Char) : Bool :=
  c.isAlpha || c.isDigit || c == '+' || c == '-' || c == '.'

/-- A valid scheme name: a letter followed by letters, digits, `+`, `-`, `.`. -/
def validSchemeName (s : Str) : Bool :=
  match s with
  | [] => false
  | c :: r => c.isAlpha && (c :: r).all isSchemeChar

/-- A hexadecimal digit, either case (`ishex`). -/
def isHexDigitCh (c : Char) : Bool :=
  ('0' ≤ c && c ≤ '9') || ('a' ≤ c && c ≤ 'f') || ('A' ≤ c && c ≤ 'F')

/-- The value of a hexadecimal digit (`unhex`). -/
def hexCharVal (c : Char) : Nat :=
  if c.toNat ≤ 57 then c.toNat - 48
  else if c.toNat ≤ 70 then c.toNat - 55
  else c.toNat - 87

/-- An ASCII alphanumeric byte. -/
def isAlnumByte (b : Nat) : Bool :=
  (48 ≤ b && b ≤ 57) || (65 ≤ b && b ≤ 90) || (97 ≤ b && b ≤ 122)

/-- `shouldEscape(c, encodePath)`: everything except alphanumerics,
`-._~` (unreserved) and `$&+,/:;=@` (reserved chars the path keeps) is
escaped; in particular `?`, spaces and all bytes ≥ 0x80. -/
def shouldEscapePath (b : Nat) : Bool :=
  !(isAlnumByte b || b == 45 || b == 95 || b == 46 || b == 126 ||
    b == 36 || b == 38 || b == 43 || b == 44 || b == 47 || b == 58 ||
    b == 59 || b == 61 || b == 64)

/-- `shouldEscape(c, encodeHost)`: hosts keep alphanumerics, `-._~` and
`!$&'()*+,;=:[]<>"` unescaped. -/
def shouldEscapeHost (b : Nat) : Bool :=
  !(isAlnumByte b || b == 45 || b == 95 || b == 46 || b == 126 ||
    b == 33 || b == 36 || b == 38 || b == 39 || b == 40 || b == 41 ||
    b == 42 || b == 43 || b == 44 || b == 59 || b == 61 || b == 58 ||
    b == 91 || b == 93 || b == 60 || b == 62 || b == 34)

/-- `shouldEscape(c, encodeFragment)`: fragments keep alphanumerics,
`-._~`, the reserved `$&+,/:;=?@` and `!()*` unescaped. -/
def shouldEscapeFragment (b : Nat) : Bool :=
  !(isAlnumByte b || b == 45 || b == 95 || b == 46 || b == 126 ||
    b == 36 || b == 38 || b == 43 || b == 44 || b == 47 || b == 58 ||
    b == 59 || b == 61 || b == 63 || b == 64 ||
    b == 33 || b == 40 || b == 41 || b == 42)

/-- `escape`: render a byte sequence, escaping with uppercase `%XX`
exactly the bytes the mode's table escapes. -/
def escapeBytesWith (esc : Nat → Bool) (bs : List Nat) : Str :=
  bs.flatMap fun b =>
    if esc b then ['%', hexUpper (b / 16), hexUpper (b % 16)]
    else [Char.ofNat b]

/-- The UTF-8 bytes of a string. -/
def stringUTF8 (s : Str) : List Nat := s.flatMap utf8Bytes

/-- The validity scan of `unescape`: every `%` must be followed by two
hexadecimal digits. -/
def validEscapes : Str → Bool
  | [] => true
  | '%' :: rest =>
    match rest with
    | a :: b :: r => isHexDigitCh a && isHexDigitCh b && validEscapes r
    | _ => false
  | _ :: r => validEscapes r

/-- The byte sequence `unescape` decodes a path or fragment to (called
only after `validEscapes`; a malformed escape is kept verbatim). -/
def unescapeBytes : Str → List Nat
  | [] => []
  | '%' :: a :: b :: r =>
    if isHexDigitCh a && isHexDigitCh b then
      (16 * hexCharVal a + hexCharVal b) :: unescapeBytes r
    else utf8Bytes '%' ++ utf8Bytes a ++ utf8Bytes b ++ unescapeBytes r
  | c :: r => utf8Bytes c ++ unescapeBytes r

/-- `validEncoded`: may this raw component be written back verbatim?
`!$&'()*+,;=:@[]` and `%` always may; anything else exactly when the
mode's table does not escape it (so never a byte ≥ 0x80). -/
def validEncodedWith (esc : Nat → Bool) (s : Str) : Bool :=
  s.all fun c =>
    c == '!' || c == '$' || c == '&' || c == '\'' || c == '(' ||
    c == ')' || c == '*' || c == '+' || c == ',' || c == ';' ||
    c == '=' || c == ':' || c == '@' || c == '[' || c == ']' ||
    c == '%' || (c.toNat < 128 && !esc c.toNat)

/-- `EscapedPath`/`EscapedFragment`: keep the raw component when
`validEncoded` allows it, otherwise decode and re-escape it. -/
def reencodeWith (esc : Nat → Bool) (s : Str) : Str :=
  if validEncodedWith esc s then s else escapeBytesWith esc (unescapeBytes s)

/-- Split at the first occurrence of a separator (`strings.Cut`):
the part before it and, when present, the part after it. -/
def cutAt (sep : Char) : Str → Str × Option Str
  | [] => ([], none)
  | c :: r =>
    if c = sep then ([], some r)
    else
      let t := cutAt sep r
      (c :: t.1, t.2)

/-- The scan of `getScheme`, with the scanned prefix accumulated in
reverse: an error for a leading colon, the scheme and remainder at the
first colon when the prefix is a valid scheme name, no scheme
otherwise. -/
def getSchemeGo (acc : Str) : Str → Except Str (Option (Str × Str))
  | [] => Except.ok none
  | ':' :: r =>
    if acc = [] then Except.error "missing protocol scheme".toList
    else if validSchemeName acc.reverse then Except.ok (some (acc.reverse, r))
    else Except.ok none
  | c :: r => getSchemeGo (c :: acc) r

/-- `getScheme`. -/
def getScheme (s : Str) : Except Str (Option (Str × Str)) := getSchemeGo [] s

/-- The force-query/raw-query split: a single trailing `?` sets
`ForceQuery` with an empty raw query; otherwise cut at the first `?`,
the raw query kept verbatim. -/
def splitQuery (rest : Str) : Str × Bool × Str :=
  match rest.reverse with
  | '?' :: rr =>
    if rr.any (fun c => c == '?') then
      match cutAt '?' rest with
      | (bef, some q) => (bef, false, q)
      | (bef, none) => (bef, false, [])
    else (rr.reverse, true, [])
  | _ =>
    match cutAt '?' rest with
    | (bef, some q) => (bef, false, q)
    | (bef, none) => (bef, false, [])

/-- A host character `unescape(host, encodeHost)` accepts raw: any
byte ≥ 0x80, or an ASCII byte the host table keeps. -/
def isHostAllowedChar (c : Char) : Bool :=
  128 ≤ c.toNat || !shouldEscapeHost c.toNat

/-- `validOptionalPort` applied after the last colon of the host, when
one exists: only digits may follow it. -/
def portValid (host : Str) : Bool :=
  !(host.any fun c => c == ':') ||
  (host.reverse.takeWhile fun c => !(c == ':')).all Char.isDigit

/-- `parseHost` on the modelled subset: reject userinfo, percent
escapes and bracketed IPv6 hosts as unmodelled; then check the port and
the host character set as `net/url` does.  The host is kept raw; the
serializer re-escapes it. -/
def parseHost (h : Str) : Except Str Str :=
  if h.any (fun c => c == '@' || c == '%') ||
      (match h with | '[' :: _ => true | _ => false) then
    Except.error "host form outside the modelled subset of url.Parse".toList
  else if !portValid h then
    Except.error "invalid port after host".toList
  else if !(h.all isHostAllowedChar) then
    Except.error "invalid character in host name".toList
  else Except.ok h

/-- The fields of Go's `url.URL` the model needs (`User` is always
absent on the modelled subset).  The path and fragment are kept raw —
their escape validity is checked at parse time, and the serializer
applies the `EscapedPath`/`EscapedFragment` rules, which yields the
same printed string as Go's decoded-plus-`RawPath` representation. -/
structure URLModel where
  scheme : Option Str
  rootless : Str
  host : Str
  omitHost : Bool
  pathRaw : Str
  forceQuery : Bool
  rawQuery : Str
  fragRaw : Str

/-- Does the text start with two slashes? -/
def twoSlashes : Str → Bool
  | '/' :: '/' :: _ => true
  | _ => false

/-- Does the text start with three slashes? -/
def threeSlashes : Str → Bool
  | '/' :: '/' :: '/' :: _ => true
  | _ => false

/-- `parse(u, viaRequest=false)` on the fragment-free part: the `*`
special case, the scheme split (lowercasing the scheme), the query
split, then either an opaque remainder (kept verbatim, no validation),
an authority plus path, or a bare path — with the schemeless
first-segment-colon rejection and path escape validation. -/
def parseNoFrag (u : Str) : Except Str URLModel :=
  if u = ['*'] then Except.ok ⟨none, [], [], false, ['*'], false, [], []⟩
  else
    match getScheme u with
    | Except.error e => Except.error e
    | Except.ok schemeOpt =>
      let sch : Option Str :=
        match schemeOpt with
        | some (s, _) => some (s.map Char.toLower)
        | none => none
      let rest0 : Str := match schemeOpt with | some (_, r) => r | none => u
      let q := splitQuery rest0
      let rest := q.1
      match rest with
      | '/' :: _ =>
        if (sch ≠ none || !threeSlashes rest) && twoSlashes rest then
          let t := cutAt '/' (rest.drop 2)
          let path : Str := match t.2 with | some after => '/' :: after | none => []
          match parseHost t.1 with
          | Except.error e => Except.error e
          | Except.ok h =>
            if validEscapes path then
              Except.ok ⟨sch, [], h, false, path, q.2.1, q.2.2, []⟩
            else Except.error "invalid URL escape".toList
        else
          if validEscapes rest then
            Except.ok ⟨sch, [], [], sch.isSome, rest, q.2.1, q.2.2, []⟩
          else Except.error "invalid URL escape".toList
      | _ =>
        match sch with
        | some _ => Except.ok ⟨sch, rest, [], false, [], q.2.1, q.2.2, []⟩
        | none =>
          if (cutAt '/' rest).1.any (fun c => c == ':') then
            Except.error "first path segment in URL cannot contain colon".toList
          else if validEscapes rest then
            Except.ok ⟨none, [], [], false, rest, q.2.1, q.2.2, []⟩
          else Except.error "invalid URL escape".toList

/-- `url.Parse`: cut the fragment at the first `#`, reject control
bytes in the remainder, parse it, then validate the fragment's escapes
(a control byte after `#` is not rejected, as in Go). -/
def parseURLModel (s : Str) : Except Str URLModel :=
  let cut := cutAt '#' s
  if cut.1.any isCTL then
    Except.error "net/url: invalid control character in URL".toList
  else
    match parseNoFrag cut.1 with
    | Except.error e => Except.error e
    | Except.ok m =>
      match cut.2 with
      | none => Except.ok m
      | some f =>
        if validEscapes f then Except.ok { m with fragRaw := f }
        else Except.error "invalid URL escape".toList

/-- `URL.String`: scheme (already lowercased) plus colon; the opaque
part verbatim, or `//`, the re-escaped host and the re-encoded path
(with Go's rules for omitting `//`, the leading-slash guard and the
`./` guard for a colon in a relative first segment); `?` plus the raw
query when forced or non-empty; `#` plus the re-encoded fragment when
non-empty. -/
def urlModelString (m : URLModel) : Str :=
  let schemePart : Str := match m.scheme with | some sch => sch ++ [':'] | none => []
  let mainPart : Str :=
    if m.rootless ≠ [] then m.rootless
    else
      let writeSlashes :=
        (m.scheme ≠ none || !(m.host = [])) &&
        !(m.omitHost && m.host = []) &&
        (!(m.host = []) || !(m.pathRaw = []))
      let hostPart : Str :=
        if writeSlashes then
          '/' :: '/' :: escapeBytesWith shouldEscapeHost (stringUTF8 m.host)
        else []
      let path0 := reencodeWith shouldEscapePath m.pathRaw
      let path1 :=
        if path0 ≠ [] && path0.head? ≠ some '/' && m.host ≠ [] then '/' :: path0
        else path0
      let path2 :=
        if schemePart = [] && hostPart = [] &&
            (cutAt '/' path1).1.any (fun c => c == ':') then
          '.' :: '/' :: path1
        else path1
      hostPart ++ path2
  let queryPart : Str :=
    if m.forceQuery || !(m.rawQuery = []) then '?' :: m.rawQuery else []
  let fragPart : Str :=
    if m.fragRaw ≠ [] then '#' :: reencodeWith shouldEscapeFragment m.fragRaw
    else []
  schemePart ++ mainPart ++ queryPart ++ fragPart

/-- `url.Parse` followed by `URL.String`, on the modelled subset. -/
def goURLParse (s : Str) : Except Str Str :=
  match parseURLModel s with
  | Except.error e => Except.error e
  | Except.ok m => Except.ok (urlModelString m)

/-- `catResult.Format` (cat.go lines 120-130): reject an empty image URL,
parse the URL, and render the single-line image embed. -/
def Format (image : Str) : Except Str Str :=
  if image = [] then Except.error "empty image url".toList
  else
    match goURLParse image with
    | Except.error e =>
      Except.error ("invalid image url ".toList ++ image ++ ": ".toList ++ e)
    | Except.ok v => Except.ok ("![cat image](".toList ++ v ++ ")".toList)

/-! ## Image retrieval: `realClowder.readCat`

Go source: cat.go lines 148-181.  The HTTP GET and the
`scmprovider.ImageTooBig` size check (code of this repository outside
the embedded file, used here only through its `(bool, error)` result)
are abstracted into an environment of function parameters.  The JSON
decoding of the response body into `[]catResult` is modelled by letting
the environment yield the decode outcome directly: either a decoding
error or the list of `url` fields.  The second component of the result
records whether the HTTP GET was performed.
-/

/-- The outcome of a non-failing HTTP GET: the status code and the JSON
decode outcome of the body (the list of `url` fields of the decoded
`[]catResult`). -/
structure HTTPResp where
  status : Nat
  decoded : Except Str (List Str)

/-- The external effects `readCat` depends on: `http.Get` (an
`Except.error` models a transport error) and `scmprovider.ImageTooBig`. -/
structure CatEnv where
  httpGet : Str → Except Str HTTPResp
  imageTooBig : Str → Except Str Bool

/-- The tail of `readCat` from `a := cats[0]` on (cat.go lines 169-180):
reject an empty URL, run the size check, reject an oversized image, and
format the embed.  This part runs on both the grumpy path and the
network path. -/
def finishCat (env : CatEnv) (uri a : Str) : Except Str Str :=
  if a = [] then Except.error ("no image url in response from ".toList ++ uri)
  else
    match env.imageTooBig a with
    | Except.error e =>
      Except.error ("could not validate image size ".toList ++ a ++ ": ".toList ++ e)
    | Except.ok true => Except.error ("longcat is too long: ".toList ++ a)
    | Except.ok false => Format a

/-- `realClowder.readCat` (cat.go lines 148-181).  The cached key is
passed explicitly (the source reads it inside `URL` under the shared
lock).  Returns the result together with a flag recording whether the
HTTP GET was performed. -/
def readCat (env : CatEnv) (key category : Str) (movieCat : Bool) :
    Except Str Str × Bool :=
  let uri := URL key category movieCat
  if grumpyMatch category then (finishCat env uri grumpyURLChars, false)
  else
    match env.httpGet uri with
    | Except.error e =>
      (Except.error ("could not read cat from ".toList ++ uri ++ ": ".toList ++ e), true)
    | Except.ok resp =>
      if resp.status > 299 ∨ resp.status < 200 then
        (Except.error ("failing ".toList ++ (toString resp.status).toList ++
          " response from ".toList ++ uri), true)
      else
        match resp.decoded with
        | Except.error e => (Except.error e, true)
        | Except.ok [] =>
          (Except.error ("no cats in response from ".toList ++ uri), true)
        | Except.ok (a :: _) => (finishCat env uri a, true)

/-! ## The credential cache: `realClowder.setKey`

Go source: cat.go lines 96-114.  Time is modelled in seconds (the
refresh window `1 * time.Minute` is 60), the key file by a function from
paths to read outcomes, and the lock-protected fields `update` and `key`
by an explicit state record.  `setKey` returns the new state together
with the number of file reads it performed (0 or 1).
-/

/-- The mutable fields of `realClowder` that `setKey` touches: the
refresh deadline (`update`, a timestamp in seconds) and the cached key. -/
structure Clowder where
  update : Nat
  key : Str
  deriving DecidableEq

/-- `unicode.IsSpace` on the Latin-1 range, as used by
`strings.TrimSpace`: tab, newline, vertical tab, form feed, carriage
return, space, next line (0x85) and no-break space (0xA0).  (Space
characters above Latin-1 are not modelled; no claim depends on them.) -/
def isGoSpace (c : Char) : Bool :=
  c == '\t' || c == '\n' || c == Char.ofNat 11 || c == Char.ofNat 12 ||
  c == Char.ofNat 13 || c == ' ' || c == Char.ofNat 133 || c == Char.ofNat 160

/-- `strings.TrimSpace`: drop whitespace from both ends. -/
def trimSpace (s : Str) : Str :=
  ((s.dropWhile isGoSpace).reverse.dropWhile isGoSpace).reverse

/-- `realClowder.setKey` (cat.go lines 96-114): return unchanged unless
`now` is strictly after the stored deadline; otherwise move the deadline
one minute ahead, then clear the key on an empty path, store the trimmed
file content on a successful read, and clear the key (logging the error)
on a failed read. -/
def setKey (readFile : Str → Except Str Str) (now : Nat) (keyPath : Str)
    (c : Clowder) : Clowder × Nat :=
  if now ≤ c.update then (c, 0)
  else if keyPath = [] then (⟨now + 60, []⟩, 0)
  else
    match readFile keyPath with
    | Except.ok b => (⟨now + 60, trimSpace b⟩, 1)
    | Except.error _ => (⟨now + 60, []⟩, 1)

/-! ## The command handler: `handle`

Go source: cat.go lines 195-224.  The retriever parameter `r` gives the
outcome of the `i`-th `readCat` call (the `clowder` interface), `post`
models `CreateComment` with the event coordinates (org, repo, number,
PR flag) already applied — `handle` posts at most one comment per
invocation, so only the body matters — and `fmtR` models
`plugins.FormatResponseRaw` with the event body, link and quoted author
already applied.  The initial `setKey()` call mutates only the
credential cache, which `readCat` receives through its environment, so
it is not replayed here.  The result records the number of retriever
calls, the bodies posted, and the returned error.
-/

/-- The fallback message for a supplied category (cat.go line 214). -/
def badCategoryChars : Str :=
  "Bad category. Please see https://api.thecatapi.com/api/categories/list".toList

/-- The fallback message for an empty category (cat.go line 216). -/
def serviceDownChars : Str := "https://thecatapi.com appears to be down".toList

/-- The error `handle` returns after exhausting retries (cat.go line 223). -/
def noValidCatChars : Str := "could not find a valid cat image".toList

/-- Is a retrieval outcome an error? -/
def isErr : Except Str Str → Bool
  | Except.error _ => true
  | Except.ok _ => false

/-- The retry loop of `handle` (cat.go lines 203-210): from attempt
index `i` with `fuel` attempts left, the number of retriever calls made
and the first successful response, if any. -/
def runRetries (r : Nat → Except Str Str) : Nat → Nat → Nat × Option Str
  | _, 0 => (0, none)
  | i, fuel + 1 =>
    match r i with
    | Except.ok resp => (1, some resp)
    | Except.error _ =>
      let rest := runRetries r (i + 1) fuel
      (rest.1 + 1, rest.2)

/-- The observable outcome of one `handle` invocation. -/
structure HandleResult where
  retrieverCalls : Nat
  posted : List Str
  retErr : Option Str
  deriving DecidableEq

/-- `handle` (cat.go lines 195-224): up to 3 retrieval attempts; on the
first success, post the formatted response and return the posting
call's error; on exhaustion, post the category-dependent fallback
message (a posting failure is only logged) and return the fixed
`could not find a valid cat image` error. -/
def handle (r : Nat → Except Str Str) (post : Str → Option Str)
    (fmtR : Str → Str) (category : Str) : HandleResult :=
  match runRetries r 0 3 with
  | (n, some resp) => ⟨n, [fmtR resp], post (fmtR resp)⟩
  | (n, none) =>
    let msg := if category ≠ [] then badCategoryChars else serviceDownChars
    ⟨n, [fmtR msg], some noValidCatChars⟩

end Cat

deriving instance DecidableEq for Except

namespace Cat

/-! ## Lemmas about the grumpy-keyword matcher -/

theorem matchKeyword_append (kw : Str) :
    ∀ (pat rest : Str), kw.map Char.toLower = pat →
    matchKeyword pat (kw ++ rest) = some rest := by
  induction kw with
  | nil => intro pat rest h; subst h; rfl
  | cons c kw ih =>
    intro pat rest h
    subst h
    simp only [List.map_cons, List.cons_append, matchKeyword, beq_self_eq_true, if_pos]
    exact ih _ rest rfl

theorem wsThenEol_append (ws : Str) :
    ∀ post : Str, ws.all isWsRE2 = true →
    (post = [] ∨ ∃ q, post = '\n' :: q) →
    wsThenEol (ws ++ post) = true := by
  induction ws with
  | nil =>
    intro post _ hpost
    rcases hpost with h | ⟨q, h⟩ <;> subst h <;> simp [wsThenEol]
  | cons c ws ih =>
    intro post hall hpost
    simp only [List.all_cons, Bool.and_eq_true] at hall
    have h2 : wsThenEol (ws ++ post) = true := ih post hall.2 hpost
    simp [wsThenEol, hall.1, h2, List.append_eq]

theorem lineStartMatch_keyword (kw ws post : Str)
    (hkw : kw.map Char.toLower = noPat ∨ kw.map Char.toLower = grumpyPat)
    (hws : ws.all isWsRE2 = true)
    (hpost : post = [] ∨ ∃ q, post = '\n' :: q) :
    lineStartMatch (kw ++ (ws ++ post)) = true := by
  have heol := wsThenEol_append ws post hws hpost
  rcases hkw with h | h <;>
    simp [lineStartMatch, matchKeyword_append kw _ (ws ++ post) h, heol]

theorem grumpyGo_of_lineStartMatch (s : Str) (h : lineStartMatch s = true) :
    grumpyGo true s = true := by
  cases s with
  | nil => exact absurd h (by decide)
  | cons c r => simp [grumpyGo, h]

theorem grumpyGo_append_newline (p : Str) :
    ∀ (b : Bool) (t : Str), grumpyGo true t = true →
    grumpyGo b (p ++ '\n' :: t) = true := by
  induction p with
  | nil => intro b t h; simp [grumpyGo, h]
  | cons c p ih => intro b t h; simp [grumpyGo, ih _ t h]

/-- A text in which some line consists of a keyword followed by
whitespace matches the grumpy pattern. -/
theorem grumpyMatch_line (pre kw ws post : Str)
    (hkw : kw.map Char.toLower = noPat ∨ kw.map Char.toLower = grumpyPat)
    (hws : ws.all isWsRE2 = true)
    (hpre : pre = [] ∨ ∃ p, pre = p ++ ['\n'])
    (hpost : post = [] ∨ ∃ q, post = '\n' :: q) :
    grumpyMatch (pre ++ kw ++ ws ++ post) = true := by
  have hline := lineStartMatch_keyword kw ws post hkw hws hpost
  rcases hpre with h | ⟨p, h⟩ <;> subst h
  · simpa [grumpyMatch] using grumpyGo_of_lineStartMatch _ hline
  · have := grumpyGo_append_newline p true (kw ++ (ws ++ post))
      (grumpyGo_of_lineStartMatch _ hline)
    simpa [grumpyMatch, List.append_assoc] using this

/-- A grumpy-matching category never reaches the HTTP GET. -/
theorem readCat_snd_of_grumpy (env : CatEnv) (key category : Str)
    (movieCat : Bool) (h : grumpyMatch category = true) :
    (readCat env key category movieCat).2 = false := by
  simp [readCat, h]

/-! ## Claim theorems -/

/-- C1 (counterexample).  The claim fails twice over.  First, the
category `" no"` — the keyword padded with one leading space and no line
break — does not match `(?mi)^(no|grumpy)\s*$` (the `^` anchor admits
leading padding only when it ends in a newline), so `readCat` performs
the HTTP GET instead of substituting the fallback.  Second, even on a
matching category (`"no"`), `readCat` still runs the image-size check on
the fallback URL, so it does not always succeed: it errors when the
check reports the image too big. -/
theorem readCat_grumpy_cex :
    (readCat ⟨fun _ => Except.error "x".toList, fun _ => Except.ok false⟩
      [] (' ' :: 'n' :: 'o' :: []) false).2 = true ∧
    isErr (readCat ⟨fun _ => Except.error "x".toList, fun _ => Except.ok true⟩
      [] ('n' :: 'o' :: []) false).1 = true := by
  constructor
  · decide
  · decide

/-- C1 (amended).  For every category the pattern `(?mi)^(no|grumpy)\s*$`
matches — the keyword alone or with trailing whitespace, with leading
padding only when it ends in a line break — `readCat` performs no HTTP
GET and substitutes the fixed fallback image URL, succeeding with the
fallback embed for any movie-flag value and any credential state,
provided the image-size check (which still runs on the fallback URL)
reports it acceptable. -/
theorem readCat_grumpy_override (env : CatEnv) (key category : Str)
    (movieCat : Bool)
    (hmatch : grumpyMatch category = true)
    (hsize : env.imageTooBig grumpyURLChars = Except.ok false) :
    readCat env key category movieCat =
      (Except.ok ("![cat image](".toList ++ grumpyURLChars ++ ")".toList), false) := by
  have hfin : finishCat env (URL key category movieCat) grumpyURLChars =
      Except.ok ("![cat image](".toList ++ grumpyURLChars ++ ")".toList) := by
    unfold finishCat
    rw [if_neg (by decide), hsize]
    decide
  simp [readCat, hmatch, hfin]

/-- C1 (witness): the amended theorem at the category `"no"`, an empty
key, a size check accepting everything, and an environment whose HTTP
layer always fails — showing the network is never consulted. -/
theorem readCat_grumpy_override_witness :
    readCat ⟨fun _ => Except.error "x".toList, fun _ => Except.ok false⟩
      [] "no".toList false =
      (Except.ok ("![cat image](".toList ++ grumpyURLChars ++ ")".toList), false) :=
  readCat_grumpy_override
    ⟨fun _ => Except.error "x".toList, fun _ => Except.ok false⟩
    [] "no".toList false (by decide) rfl

/-- C10.  Because the pattern is compiled in multiline mode, any
category in which some line consists of `no` or `grumpy`
(case-insensitive, with optional trailing whitespace) matches, whatever
the surrounding lines hold, and `readCat` then takes the grumpy override
and performs no HTTP GET.  The decomposition `pre ++ kw ++ ws ++ post`
with `pre` empty or ending in a newline and `post` empty or starting
with one exhibits exactly such a line. -/
theorem grumpyMatch_multiline (pre kw ws post : Str) (env : CatEnv)
    (key : Str) (movieCat : Bool)
    (hkw : kw.map Char.toLower = noPat ∨ kw.map Char.toLower = grumpyPat)
    (hws : ws.all isWsRE2 = true)
    (hpre : pre = [] ∨ ∃ p, pre = p ++ ['\n'])
    (hpost : post = [] ∨ ∃ q, post = '\n' :: q) :
    grumpyMatch (pre ++ kw ++ ws ++ post) = true ∧
    (readCat env key (pre ++ kw ++ ws ++ post) movieCat).2 = false := by
  have h := grumpyMatch_line pre kw ws post hkw hws hpre hpost
  exact ⟨h, readCat_snd_of_grumpy env key _ movieCat h⟩

/-- C10 (witness): a three-line category whose middle line is
`GrUmPy` followed by a tab, with arbitrary text on the other lines. -/
theorem grumpyMatch_multiline_witness :
    grumpyMatch ("other text\n".toList ++ "GrUmPy".toList ++ ['\t'] ++
      ('\n' :: "more text".toList)) = true ∧
    (readCat ⟨fun _ => Except.error "x".toList, fun _ => Except.ok false⟩
      [] ("other text\n".toList ++ "GrUmPy".toList ++ ['\t'] ++
        ('\n' :: "more text".toList)) false).2 = false :=
  grumpyMatch_multiline "other text\n".toList "GrUmPy".toList ['\t']
    ('\n' :: "more text".toList)
    ⟨fun _ => Except.error "x".toList, fun _ => Except.ok false⟩ [] false
    (Or.inr (by decide)) (by decide)
    (Or.inr ⟨"other text".toList, by decide⟩)
    (Or.inr ⟨"more text".toList, rfl⟩)

/-- C6.  The request URL is the base endpoint, followed by
`&category=` and the URL-escaped category exactly when the category is
non-empty, then `&api_key=` and the URL-escaped key exactly when the
cached key is non-empty, then `&mime_types=gif` exactly when the movie
flag is set, in that order. -/
theorem URL_components (key category : Str) (movieCat : Bool) :
    URL key category movieCat =
      catAPIBase ++
      (if category = [] then [] else "&category=".toList ++ queryEscape category) ++
      (if key = [] then [] else "&api_key=".toList ++ queryEscape key) ++
      (if movieCat then "&mime_types=gif".toList else []) := by
  unfold URL
  by_cases hc : category = [] <;> by_cases hk : key = [] <;>
    simp [hc, hk]

/-- C5.  A non-rate-limited refresh (`now` strictly past the stored
deadline) clears the cached key when the path is empty, stores the
trimmed file content on a successful read, and clears the key — without
crashing — on a failed read; in every case the deadline moves one window
ahead. -/
theorem setKey_refresh (rf : Str → Except Str Str) (now : Nat)
    (path : Str) (c : Clowder) (h : c.update < now) :
    (path = [] → setKey rf now path c = (⟨now + 60, []⟩, 0)) ∧
    (∀ b, path ≠ [] → rf path = Except.ok b →
      setKey rf now path c = (⟨now + 60, trimSpace b⟩, 1)) ∧
    (∀ e, path ≠ [] → rf path = Except.error e →
      setKey rf now path c = (⟨now + 60, []⟩, 1)) := by
  have hnow : ¬ now ≤ c.update := Nat.not_le.mpr h
  refine ⟨fun hp => by simp [setKey, hnow, hp],
    fun b hp hrf => by simp [setKey, hnow, hp, hrf],
    fun e hp hrf => by simp [setKey, hnow, hp, hrf]⟩

/-- C5 (witness): a refresh from deadline 1 at time 5 with a readable
key file whose content carries surrounding whitespace. -/
theorem setKey_refresh_witness :
    setKey (fun _ => Except.ok " sekrit \n".toList) 5 "p".toList
      ⟨1, "old".toList⟩ = (⟨65, "sekrit".toList⟩, 1) := by
  rw [(setKey_refresh (fun _ => Except.ok " sekrit \n".toList) 5
    "p".toList ⟨1, "old".toList⟩ (by decide)).2.1 " sekrit \n".toList
    (by decide) rfl]
  decide

/-- C4 (counterexample).  With an empty key path the refresh after the
window has elapsed performs no file read at all, not "exactly one
more": the first call (time 1, deadline 0) refreshes and sets the
deadline to 61, and the call at time 200 — well past the window —
refreshes again yet performs 0 reads. -/
theorem setKey_empty_path_cex :
    (setKey (fun _ => Except.ok "k".toList) 1 [] ⟨0, []⟩).1.update = 61 ∧
    (setKey (fun _ => Except.ok "k".toList) 200 []
      (setKey (fun _ => Except.ok "k".toList) 1 [] ⟨0, []⟩).1).2 = 0 := by
  constructor
  · decide
  · decide

/-- Abstract behaviour of one `setKey` call: a rate-limited call is a
no-op, a refreshing call moves the deadline one window ahead and reads
the file exactly when the path is non-empty. -/
theorem setKey_spec (rf : Str → Except Str Str) (now : Nat) (path : Str)
    (c : Clowder) :
    (now ≤ c.update → setKey rf now path c = (c, 0)) ∧
    (c.update < now →
      (setKey rf now path c).1.update = now + 60 ∧
      (setKey rf now path c).2 = (if path = [] then 0 else 1)) := by
  constructor
  · intro h; simp [setKey, h]
  · intro h
    have hnow : ¬ now ≤ c.update := Nat.not_le.mpr h
    by_cases hp : path = []
    · simp [setKey, hnow, hp]
    · cases hrf : rf path <;> simp [setKey, hnow, hp, hrf]

/-- C4 (amended).  For a non-empty key path: a refreshing call performs
exactly one file read and a second call within its one-minute window
performs none (so at most one read in total), a call after the window
has elapsed performs exactly one more read, and, in general, a call
that performs a read opens a window during which every further call
performs no file I/O, regardless of call frequency. -/
theorem setKey_rate_limited :
    (∀ (rf rf2 rf3 : Str → Except Str Str) (path : Str) (c : Clowder)
      (now1 now2 now3 : Nat),
      c.update < now1 → path ≠ [] → now2 ≤ now1 + 60 → now1 + 60 < now3 →
      (setKey rf now1 path c).2 = 1 ∧
      (setKey rf2 now2 path (setKey rf now1 path c).1).2 = 0 ∧
      (setKey rf2 now2 path (setKey rf now1 path c).1).1 =
        (setKey rf now1 path c).1 ∧
      (setKey rf3 now3 path
        (setKey rf2 now2 path (setKey rf now1 path c).1).1).2 = 1) ∧
    (∀ (rf rf2 : Str → Except Str Str) (path path2 : Str) (c : Clowder)
      (now now2 : Nat),
      (setKey rf now path c).2 = 1 → now2 ≤ now + 60 →
      (setKey rf2 now2 path2 (setKey rf now path c).1).2 = 0) := by
  constructor
  · intro rf rf2 rf3 path c now1 now2 now3 h1 hp h2 h3
    obtain ⟨hup1, hr1⟩ := (setKey_spec rf now1 path c).2 h1
    rw [if_neg hp] at hr1
    have hskip : now2 ≤ (setKey rf now1 path c).1.update := by omega
    have hsnd := (setKey_spec rf2 now2 path (setKey rf now1 path c).1).1 hskip
    refine ⟨hr1, ?_, ?_, ?_⟩
    · rw [hsnd]
    · rw [hsnd]
    · rw [hsnd]
      have h3' : (setKey rf now1 path c).1.update < now3 := by omega
      have := ((setKey_spec rf3 now3 path (setKey rf now1 path c).1).2 h3').2
      rwa [if_neg hp] at this
  · intro rf rf2 path path2 c now now2 hread h2
    have hlt : c.update < now := by
      by_contra hle
      rw [(setKey_spec rf now path c).1 (Nat.le_of_not_lt hle)] at hread
      simp at hread
    have hup : (setKey rf now path c).1.update = now + 60 :=
      ((setKey_spec rf now path c).2 hlt).1
    have hskip : now2 ≤ (setKey rf now path c).1.update := by omega
    rw [(setKey_spec rf2 now2 path2 (setKey rf now path c).1).1 hskip]

/-- C4 (witness): deadline 0, first refresh at time 1 reads once, the
call at time 30 (inside the window) reads nothing, the call at time 100
(past the window) reads exactly once more. -/
theorem setKey_rate_limited_witness :
    (setKey (fun _ => Except.ok "k".toList) 1 "p".toList ⟨0, []⟩).2 = 1 ∧
    (setKey (fun _ => Except.ok "k".toList) 30 "p".toList
      (setKey (fun _ => Except.ok "k".toList) 1 "p".toList ⟨0, []⟩).1).2 = 0 ∧
    (setKey (fun _ => Except.ok "k".toList) 30 "p".toList
      (setKey (fun _ => Except.ok "k".toList) 1 "p".toList ⟨0, []⟩).1).1 =
      (setKey (fun _ => Except.ok "k".toList) 1 "p".toList ⟨0, []⟩).1 ∧
    (setKey (fun _ => Except.ok "k".toList) 100 "p".toList
      (setKey (fun _ => Except.ok "k".toList) 30 "p".toList
        (setKey (fun _ => Except.ok "k".toList) 1 "p".toList ⟨0, []⟩).1).1).2 = 1 :=
  setKey_rate_limited.1 (fun _ => Except.ok "k".toList)
    (fun _ => Except.ok "k".toList) (fun _ => Except.ok "k".toList)
    "p".toList ⟨0, []⟩ 1 30 100 (by decide) (by decide) (by decide) (by decide)

/-- C7.  First part: whenever the size check reports the decoded image
too big, `readCat` fails with an error that carries the words
`too long` and the offending image URL.  Second part: `handle` treats a
failed first attempt as retryable — with a retriever failing once and
then succeeding, it makes a second call and posts the success result,
returning the posting call's outcome. -/
theorem readCat_toobig_retryable :
    (∀ (env : CatEnv) (key category url : Str) (movieCat : Bool),
      grumpyMatch category = false →
      env.httpGet (URL key category movieCat) =
        Except.ok ⟨200, Except.ok [url]⟩ →
      url ≠ [] →
      env.imageTooBig url = Except.ok true →
      (readCat env key category movieCat).1 =
        Except.error ("longcat is too long: ".toList ++ url) ∧
      "too long".toList <:+: ("longcat is too long: ".toList ++ url) ∧
      url <:+: ("longcat is too long: ".toList ++ url)) ∧
    (∀ (msg resp : Str) (post : Str → Option Str) (fmtR : Str → Str)
      (category : Str),
      handle (fun i => if i = 0 then Except.error msg else Except.ok resp)
          post fmtR category =
        ⟨2, [fmtR resp], post (fmtR resp)⟩) := by
  constructor
  · intro env key category url movieCat hg hhttp hne hbig
    refine ⟨?_, ?_, ?_⟩
    · simp only [readCat, hg, Bool.false_eq_true, if_false, hhttp]
      rw [if_neg (by omega)]
      simp [finishCat, hne, hbig]
    · refine ⟨"longcat is ".toList, ": ".toList ++ url, ?_⟩
      have h1 : ("longcat is ".toList ++ ("too long".toList ++ ": ".toList) : Str) =
          "longcat is too long: ".toList := by decide
      simp only [← List.append_assoc]
      rw [← h1]
      simp [List.append_assoc]
    · exact ⟨"longcat is too long: ".toList, [], by simp⟩
  · intro msg resp post fmtR category
    simp [handle, runRetries]

/-- C7 (witness): a response whose only image the size check rejects,
and a retriever failing exactly once. -/
theorem readCat_toobig_retryable_witness :
    (readCat ⟨fun _ => Except.ok ⟨200, Except.ok ["http://x/big.jpg".toList]⟩,
        fun _ => Except.ok true⟩ [] ['x'] false).1 =
      Except.error ("longcat is too long: ".toList ++ "http://x/big.jpg".toList) ∧
    handle (fun i => if i = 0 then Except.error "e".toList
        else Except.ok "img".toList) (fun _ => none) id [] =
      ⟨2, ["img".toList], none⟩ :=
  ⟨(readCat_toobig_retryable.1
      ⟨fun _ => Except.ok ⟨200, Except.ok ["http://x/big.jpg".toList]⟩,
        fun _ => Except.ok true⟩ [] ['x'] "http://x/big.jpg".toList false
      (by decide) rfl (by decide) rfl).1,
    readCat_toobig_retryable.2 "e".toList "img".toList (fun _ => none) id []⟩

/-- C2.  First part: `handle` calls the retriever at most 3 times for
every retriever.  Second part: when the `k`-th call (1 ≤ k ≤ 3) is the
first to succeed, `handle` makes exactly `k` retriever calls, posts
exactly one comment — the formatted success result — and, when that
posting call succeeds, returns no error; no fallback message is
posted. -/
theorem handle_retry_success :
    (∀ (r : Nat → Except Str Str) (post : Str → Option Str)
      (fmtR : Str → Str) (category : Str),
      (handle r post fmtR category).retrieverCalls ≤ 3) ∧
    (∀ (r : Nat → Except Str Str) (post : Str → Option Str)
      (fmtR : Str → Str) (category s : Str) (k : Nat),
      1 ≤ k → k ≤ 3 →
      (∀ j, j < k - 1 → isErr (r j) = true) →
      r (k - 1) = Except.ok s →
      (handle r post fmtR category).retrieverCalls = k ∧
      (handle r post fmtR category).posted = [fmtR s] ∧
      (post (fmtR s) = none → (handle r post fmtR category).retErr = none)) := by
  constructor
  · intro r post fmtR category
    cases h0 : r 0 with
    | ok s => simp [handle, runRetries, h0]
    | error e0 =>
      cases h1 : r 1 with
      | ok s => simp [handle, runRetries, h0, h1]
      | error e1 =>
        cases h2 : r 2 with
        | ok s => simp [handle, runRetries, h0, h1, h2]
        | error e2 => simp [handle, runRetries, h0, h1, h2]
  · intro r post fmtR category s k hk1 hk3 hfail hok
    interval_cases k
    · have h0 : r 0 = Except.ok s := hok
      simp [handle, runRetries, h0]
    · have hf0 : isErr (r 0) = true := hfail 0 (by omega)
      cases h0 : r 0 with
      | ok v => rw [h0] at hf0; simp [isErr] at hf0
      | error e0 =>
        have h1 : r 1 = Except.ok s := hok
        simp [handle, runRetries, h0, h1]
    · have hf0 : isErr (r 0) = true := hfail 0 (by omega)
      have hf1 : isErr (r 1) = true := hfail 1 (by omega)
      cases h0 : r 0 with
      | ok v => rw [h0] at hf0; simp [isErr] at hf0
      | error e0 =>
        cases h1 : r 1 with
        | ok v => rw [h1] at hf1; simp [isErr] at hf1
        | error e1 =>
          have h2 : r 2 = Except.ok s := hok
          simp [handle, runRetries, h0, h1, h2]

/-- C2 (witness): a retriever failing on the first two attempts and
succeeding on the third, with a posting call that succeeds. -/
theorem handle_retry_success_witness :
    (handle (fun i => if i < 2 then Except.error "e".toList
        else Except.ok "img".toList) (fun _ => none) id []).retrieverCalls = 3 ∧
    (handle (fun i => if i < 2 then Except.error "e".toList
        else Except.ok "img".toList) (fun _ => none) id []).posted =
      ["img".toList] ∧
    ((fun _ => (none : Option Str)) "img".toList = none →
      (handle (fun i => if i < 2 then Except.error "e".toList
        else Except.ok "img".toList) (fun _ => none) id []).retErr = none) :=
  handle_retry_success.2
    (fun i => if i < 2 then Except.error "e".toList else Except.ok "img".toList)
    (fun _ => none) id [] "img".toList 3 (by decide) (by decide)
    (by decide) (by decide)

/-- C3.  When the retriever fails on all 3 attempts, `handle` posts
exactly one fallback comment — the category hint for a non-empty
category, the service-down message otherwise (and the two messages
differ) — and returns the fixed `could not find a valid cat image`
error; the whole outcome, and in particular the returned error, is the
same for every behaviour of the posting call. -/
theorem handle_exhausted_fallback (r : Nat → Except Str Str)
    (post : Str → Option Str) (fmtR : Str → Str) (category : Str)
    (h : ∀ j, j < 3 → isErr (r j) = true) :
    (handle r post fmtR category).retrieverCalls = 3 ∧
    (handle r post fmtR category).posted =
      [fmtR (if category = [] then serviceDownChars else badCategoryChars)] ∧
    (handle r post fmtR category).retErr = some noValidCatChars ∧
    (∀ post2 : Str → Option Str,
      handle r post2 fmtR category = handle r post fmtR category) ∧
    badCategoryChars ≠ serviceDownChars := by
  have hf0 : isErr (r 0) = true := h 0 (by omega)
  have hf1 : isErr (r 1) = true := h 1 (by omega)
  have hf2 : isErr (r 2) = true := h 2 (by omega)
  cases h0 : r 0 with
  | ok v => rw [h0] at hf0; simp [isErr] at hf0
  | error e0 =>
    cases h1 : r 1 with
    | ok v => rw [h1] at hf1; simp [isErr] at hf1
    | error e1 =>
      cases h2 : r 2 with
      | ok v => rw [h2] at hf2; simp [isErr] at hf2
      | error e2 =>
        by_cases hc : category = [] <;>
          simp [handle, runRetries, h0, h1, h2, hc] <;> decide

/-- C3 (witness): a retriever that always fails, an empty category, and
a posting call that itself fails. -/
theorem handle_exhausted_fallback_witness :
    (handle (fun _ => Except.error "boom".toList)
      (fun _ => some "perr".toList) id []).retrieverCalls = 3 ∧
    (handle (fun _ => Except.error "boom".toList)
      (fun _ => some "perr".toList) id []).posted =
      [id (if ([] : Str) = [] then serviceDownChars else badCategoryChars)] ∧
    (handle (fun _ => Except.error "boom".toList)
      (fun _ => some "perr".toList) id []).retErr = some noValidCatChars ∧
    (∀ post2 : Str → Option Str,
      handle (fun _ => Except.error "boom".toList) post2 id [] =
        handle (fun _ => Except.error "boom".toList)
          (fun _ => some "perr".toList) id []) ∧
    badCategoryChars ≠ serviceDownChars :=
  handle_exhausted_fallback (fun _ => Except.error "boom".toList)
    (fun _ => some "perr".toList) id [] (by decide)

/-- C9.  When the `k`-th retrieval attempt is the first to succeed and
the posting of the success comment fails, `handle` returns that posting
error directly: it makes no further retrieval calls, posts no fallback
message, and the returned error is the posting capability's error, not
the generic no-valid-image one. -/
theorem handle_post_error_propagates (r : Nat → Except Str Str)
    (post : Str → Option Str) (fmtR : Str → Str)
    (category s perr : Str) (k : Nat)
    (hk1 : 1 ≤ k) (hk3 : k ≤ 3)
    (hfail : ∀ j, j < k - 1 → isErr (r j) = true)
    (hok : r (k - 1) = Except.ok s)
    (hpost : post (fmtR s) = some perr) :
    (handle r post fmtR category).retErr = some perr ∧
    (handle r post fmtR category).retrieverCalls = k ∧
    (handle r post fmtR category).posted = [fmtR s] := by
  interval_cases k
  · have h0 : r 0 = Except.ok s := hok
    simp [handle, runRetries, h0, hpost]
  · have hf0 : isErr (r 0) = true := hfail 0 (by omega)
    cases h0 : r 0 with
    | ok v => rw [h0] at hf0; simp [isErr] at hf0
    | error e0 =>
      have h1 : r 1 = Except.ok s := hok
      simp [handle, runRetries, h0, h1, hpost]
  · have hf0 : isErr (r 0) = true := hfail 0 (by omega)
    have hf1 : isErr (r 1) = true := hfail 1 (by omega)
    cases h0 : r 0 with
    | ok v => rw [h0] at hf0; simp [isErr] at hf0
    | error e0 =>
      cases h1 : r 1 with
      | ok v => rw [h1] at hf1; simp [isErr] at hf1
      | error e1 =>
        have h2 : r 2 = Except.ok s := hok
        simp [handle, runRetries, h0, h1, h2, hpost]

/-- C9 (witness): a first-attempt success whose posting call fails. -/
theorem handle_post_error_propagates_witness :
    (handle (fun _ => Except.ok "img".toList)
      (fun _ => some "perr".toList) id []).retErr = some "perr".toList ∧
    (handle (fun _ => Except.ok "img".toList)
      (fun _ => some "perr".toList) id []).retrieverCalls = 1 ∧
    (handle (fun _ => Except.ok "img".toList)
      (fun _ => some "perr".toList) id []).posted = ["img".toList] :=
  handle_post_error_propagates (fun _ => Except.ok "img".toList)
    (fun _ => some "perr".toList) id [] "img".toList "perr".toList 1
    (by decide) (by decide) (by decide) rfl rfl

end Cat
